import Mathlib

/-!
Verification development for a ribbon-chart layout library.

The repository has three chart-building entry points, each containing its own
copy of the stack-layout / ribbon-interpolation algorithm:

* `ribbon_engine.create_ribbon_chart` — validates required columns, filters
  missing/NaN/non-positive values, sorts each period by `(value, category)`
  with a configurable ascending flag on value, stacks with a gap, and emits a
  ribbon for a category exactly when it has a coordinate entry in both of two
  adjacent periods; ribbon x-spans use the 0-based period index.
* `employee_hours_chart.create_ribbon_chart` — same overall shape, but with
  no value filtering, sorting by value only, and first-seen period/category
  order; x-spans use the 0-based period index.
* `ribbon_chart.add_ribbon_scenario` — normalises the frame to the full
  (period × category) product with 0 fill, records a coordinate entry for
  every pair (advancing the running offset only for positive values), skips
  ribbons whose two endpoint segments both have zero height, and uses the
  period *values* (not indices) for the x-span.

Values are embedded as `Option ℚ`: `none` models a missing/NaN cell and
`some q` a numeric cell; rational arithmetic models the exact real arithmetic
the layout performs (the layout only adds, subtracts and compares).  pandas'
stable sorts are embedded as insertion sort (stable for a total comparator);
Python dicts keyed by category are embedded as insertion-ordered association
lists, which agree with dict semantics when the input has no duplicate
(period, category) keys.  The sampled interpolation curves are embedded over
`ℝ` with `Real.exp` standing for the floating-point `exp`.
-/

namespace RibbonChart

/-- A table cell for the value column: `none` is a missing/NaN value. -/
abbrev Val := Option ℚ

/-- One long-form observation row: (period, category, value).
Periods are numeric (they are sorted, indexed, and — in
`add_ribbon_scenario` — used directly as x-coordinates). -/
structure Row where
  period : ℚ
  category : String
  value : Val
deriving DecidableEq

/-- `pd.isna(val) or val <= 0`, the skip test of `ribbon_engine` (line 81). -/
def isBadVal : Val → Bool
  | none => true
  | some v => decide (v ≤ 0)

/-- Addition on value cells; NaN propagates, as in float arithmetic. -/
def vadd : Val → Val → Val
  | some a, some b => some (a + b)
  | _, _ => none

/-- Subtraction on value cells; NaN propagates. -/
def vsub : Val → Val → Val
  | some a, some b => some (a - b)
  | _, _ => none

/-- `val > 0` in Python: false on NaN. -/
def vgt0 : Val → Bool
  | some a => decide (0 < a)
  | none => false

/-- `val == 0` in Python: false on NaN. -/
def veq0 : Val → Bool
  | some a => decide (a = 0)
  | none => false

/-- Boolean comparison on strings via the lexicographic `compare`. -/
def strLE (a b : String) : Bool := (compare a b).isLE

/-- Boolean comparison on rationals. -/
def qLE (a b : ℚ) : Bool := decide (a ≤ b)

/-- Stable insertion of `a` into `l`: `a` is placed before the first element
`b` with `le a b`.  Inserting earlier input elements into the sorted tail
puts them ahead of later equal-key elements, so the sort below is stable. -/
def orderedInsertB {α : Type} (le : α → α → Bool) (a : α) : List α → List α
  | [] => [a]
  | b :: l => if le a b then a :: b :: l else b :: orderedInsertB le a l

/-- Stable sort by a boolean comparator; embeds pandas' stable sorts. -/
def insertionSortB {α : Type} (le : α → α → Bool) : List α → List α
  | [] => []
  | a :: l => orderedInsertB le a (insertionSortB le l)

/-- `pandas.unique` / first-seen deduplication. -/
def pdUnique {α : Type} [DecidableEq α] (l : List α) : List α :=
  l.foldl (fun acc a => if a ∈ acc then acc else acc ++ [a]) []

/-- `sorted(df[x_col].unique())` for numeric periods. -/
def periodsSorted (rows : List Row) : List ℚ :=
  insertionSortB qLE (pdUnique (rows.map Row.period))

/-- `sorted(df[category_col].unique())`. -/
def catsSorted (rows : List Row) : List String :=
  insertionSortB strLE (pdUnique (rows.map Row.category))

/-- `df[x_col].unique()` (first-seen order, `employee_hours_chart`). -/
def periodsSeen (rows : List Row) : List ℚ := pdUnique (rows.map Row.period)

/-- `df[category_col].unique()` (first-seen order, `employee_hours_chart`). -/
def catsSeen (rows : List Row) : List String := pdUnique (rows.map Row.category)

/-- `df[df[x_col] == period]` — row order preserved. -/
def periodRows (rows : List Row) (p : ℚ) : List Row :=
  rows.filter (fun r => decide (r.period = p))

/-- The comparator of `sort_values(by=[value_col, category_col],
ascending=[asc, True])`: primary key value (direction `asc`, NaN last),
tie-break always ascending on category. -/
def engineLE (asc : Bool) (r1 r2 : Row) : Bool :=
  match r1.value, r2.value with
  | none, none => strLE r1.category r2.category
  | none, some _ => false
  | some _, none => true
  | some a, some b =>
    if a = b then strLE r1.category r2.category
    else if asc then decide (a < b) else decide (b < a)

/-- The comparator of `sort_values(by=value_col, ascending=True)` in
`employee_hours_chart` (line 64): value only, no category tie-break. -/
def hoursLE (r1 r2 : Row) : Bool :=
  match r1.value, r2.value with
  | none, none => true
  | none, some _ => false
  | some _, none => true
  | some a, some b => decide (a ≤ b)

/-- A stacked segment of `ribbon_engine`: `coords[period][cat] = (y_start, y_end)`. -/
structure Seg where
  category : String
  yStart : ℚ
  yEnd : ℚ
deriving DecidableEq

/-- The stacking loop of `ribbon_engine.create_ribbon_chart` (lines 79–97):
skip missing/NaN/≤ 0 values, otherwise record `(current_y, current_y + val)`
and advance `current_y += val + gap`. -/
def stackEngine (gap : ℚ) : ℚ → List Row → List Seg
  | _, [] => []
  | cur, r :: rest =>
    match r.value with
    | none => stackEngine gap cur rest
    | some v =>
      if v ≤ 0 then stackEngine gap cur rest
      else ⟨r.category, cur, cur + v⟩ :: stackEngine gap (cur + v + gap) rest

/-- `coords[period]` of `ribbon_engine`: filter the period, stable-sort by
`(value, category)`, stack from 0. -/
def coordsEngine (gap : ℚ) (asc : Bool) (rows : List Row) (p : ℚ) : List Seg :=
  stackEngine gap 0 (insertionSortB (engineLE asc) (periodRows rows p))

/-- `coords[period][cat]` lookup (first match; equals dict lookup on
duplicate-free keys). -/
def findSeg (segs : List Seg) (cat : String) : Option Seg :=
  segs.find? (fun s => s.category == cat)

/-- A ribbon record of `ribbon_engine`: category, left period index `idx`,
the two periods, the x-span, and the two endpoint extents
`(y1_b, y1_t)`/`(y2_b, y2_t)` read from `coords`. -/
structure Ribbon where
  category : String
  idx : ℕ
  p1 : ℚ
  p2 : ℚ
  x1 : ℚ
  x2 : ℚ
  y1b : ℚ
  y1t : ℚ
  y2b : ℚ
  y2t : ℚ
deriving DecidableEq

/-- The ribbon loop of `ribbon_engine.create_ribbon_chart` (lines 100–125):
for each adjacent pair of sorted periods and each sorted category, emit a
ribbon exactly when the category has a coordinate entry in both periods;
`x1, x2 = i + bar_width/2, (i+1) - bar_width/2` use the period index. -/
def ribbonsEngine (gap bw : ℚ) (asc : Bool) (rows : List Row) : List Ribbon :=
  (List.range ((periodsSorted rows).length - 1)).flatMap (fun i =>
    match (periodsSorted rows)[i]?, (periodsSorted rows)[i + 1]? with
    | some p1, some p2 =>
      (catsSorted rows).filterMap (fun cat =>
        match findSeg (coordsEngine gap asc rows p1) cat,
              findSeg (coordsEngine gap asc rows p2) cat with
        | some s1, some s2 =>
          some ⟨cat, i, p1, p2, (i : ℚ) + bw / 2, ((i : ℚ) + 1) - bw / 2,
                s1.yStart, s1.yEnd, s2.yStart, s2.yEnd⟩
        | _, _ => none)
    | _, _ => [])

/-- A stacked segment with possibly-NaN extents (`employee_hours_chart` and
`add_ribbon_scenario` do not filter NaN before arithmetic). -/
structure VSeg where
  category : String
  yStart : Val
  yEnd : Val
deriving DecidableEq

/-- `coords[period][cat]` lookup on NaN-capable segments. -/
def findVSeg (segs : List VSeg) (cat : String) : Option VSeg :=
  segs.find? (fun s => s.category == cat)

/-- The stacking loop of `employee_hours_chart.create_ribbon_chart`
(lines 68–81): every row gets an entry — no missing/NaN/≤ 0 filtering —
and `current_y += val + gap` unconditionally. -/
def stackHours (gap : ℚ) : Val → List Row → List VSeg
  | _, [] => []
  | cur, r :: rest =>
    ⟨r.category, cur, vadd cur r.value⟩ ::
      stackHours gap (vadd cur (vadd r.value (some gap))) rest

/-- `coords[period]` of `employee_hours_chart`: filter, stable-sort by value
only, stack from 0. -/
def coordsHours (gap : ℚ) (rows : List Row) (p : ℚ) : List VSeg :=
  stackHours gap (some 0) (insertionSortB hoursLE (periodRows rows p))

/-- A ribbon record with possibly-NaN extents. -/
structure VRibbon where
  category : String
  idx : ℕ
  p1 : ℚ
  p2 : ℚ
  x1 : ℚ
  x2 : ℚ
  y1b : Val
  y1t : Val
  y2b : Val
  y2t : Val
deriving DecidableEq

/-- `bar_width = 0.4` of `employee_hours_chart` (line 60). -/
def hoursBarWidth : ℚ := 2 / 5

/-- The ribbon loop of `employee_hours_chart.create_ribbon_chart`
(lines 84–109): first-seen period/category order, emit exactly when the
category is in `coords` of both periods (no zero-height check);
`x1, x2 = i + bar_width/2, (i+1) - bar_width/2` use the period index. -/
def ribbonsHours (gap : ℚ) (rows : List Row) : List VRibbon :=
  (List.range ((periodsSeen rows).length - 1)).flatMap (fun i =>
    match (periodsSeen rows)[i]?, (periodsSeen rows)[i + 1]? with
    | some p1, some p2 =>
      (catsSeen rows).filterMap (fun cat =>
        match findVSeg (coordsHours gap rows p1) cat,
              findVSeg (coordsHours gap rows p2) cat with
        | some s1, some s2 =>
          some ⟨cat, i, p1, p2, (i : ℚ) + hoursBarWidth / 2,
                ((i : ℚ) + 1) - hoursBarWidth / 2,
                s1.yStart, s1.yEnd, s2.yStart, s2.yEnd⟩
        | _, _ => none)
    | _, _ => [])

/-- The value the normalised frame of `add_ribbon_scenario` (lines 50–51)
holds at `(p, cat)`: the original cell if the pair is present, else the
`fill_value` 0. -/
def normValue (rows : List Row) (p : ℚ) (cat : String) : Val :=
  match rows.find? (fun r => decide (r.period = p) && (r.category == cat)) with
  | some r => r.value
  | none => some 0

/-- `df_norm`: the full (sorted periods × sorted categories) product with
0-filled gaps, in `MultiIndex.from_product` order. -/
def dfNorm (rows : List Row) : List Row :=
  (periodsSorted rows).flatMap (fun p =>
    (catsSorted rows).map (fun cat => ⟨p, cat, normValue rows p cat⟩))

/-- The stacking loop of `add_ribbon_scenario` (lines 69–86): every row gets
a coordinate entry `(current_y, current_y + val)`; the offset advances by
`val + gap` only when `val > 0`. -/
def stackScenario (gap : ℚ) : Val → List Row → List VSeg
  | _, [] => []
  | cur, r :: rest =>
    ⟨r.category, cur, vadd cur r.value⟩ ::
      stackScenario gap
        (if vgt0 r.value then vadd cur (vadd r.value (some gap)) else cur) rest

/-- `coords[period]` of `add_ribbon_scenario`: the normalised frame filtered
to the period, stable-sorted by `(value, category)` ascending, stacked from 0. -/
def coordsScenario (gap : ℚ) (rows : List Row) (p : ℚ) : List VSeg :=
  stackScenario gap (some 0) (insertionSortB (engineLE true) (periodRows (dfNorm rows) p))

/-- `bar_width = 0.35` of `add_ribbon_scenario` (line 58). -/
def scenarioBarWidth : ℚ := 7 / 20

/-- The ribbon loop of `add_ribbon_scenario` (lines 89–108): the coordinate
lookup always succeeds (full product); a ribbon is skipped exactly when both
endpoint segments have zero height; `x1, x2 = p1 + bar_width/2,
p2 - bar_width/2` use the period *values*, not indices. -/
def ribbonsScenario (gap : ℚ) (rows : List Row) : List VRibbon :=
  (List.range ((periodsSorted rows).length - 1)).flatMap (fun i =>
    match (periodsSorted rows)[i]?, (periodsSorted rows)[i + 1]? with
    | some p1, some p2 =>
      (catsSorted rows).filterMap (fun cat =>
        match findVSeg (coordsScenario gap rows p1) cat,
              findVSeg (coordsScenario gap rows p2) cat with
        | some s1, some s2 =>
          if veq0 (vsub s1.yEnd s1.yStart) && veq0 (vsub s2.yEnd s2.yStart) then none
          else some ⟨cat, i, p1, p2, p1 + scenarioBarWidth / 2,
                     p2 - scenarioBarWidth / 2,
                     s1.yStart, s1.yEnd, s2.yStart, s2.yEnd⟩
        | _, _ => none)
    | _, _ => [])

/-- Modelled from the spec: the list of required fields absent from the
dataset, which a SchemaError is said to report.  (The code itself raises on
the first missing column only; this definition is the spec's wording, used
to compare against the code's behaviour.) -/
def missingFields (columns required : List String) : List String :=
  required.filter (fun c => !(decide (c ∈ columns)))

/-- The validation loop of `ribbon_engine.create_ribbon_chart` (lines 48–51):
the first required column not present in the dataset, if any. -/
def requiredCheck (columns : List String) (xCol catCol valCol : String) : Option String :=
  [xCol, catCol, valCol].find? (fun c => !(decide (c ∈ columns)))

/-- `ribbon_engine.create_ribbon_chart` as a fallible computation: raise on
the first missing required column before any layout work, otherwise return
the per-period coordinate map and the ribbon list. -/
def createRibbonChartE (columns : List String) (xCol catCol valCol : String)
    (gap bw : ℚ) (asc : Bool) (rows : List Row) :
    Except String (List (ℚ × List Seg) × List Ribbon) :=
  match requiredCheck columns xCol catCol valCol with
  | some c => .error c
  | none =>
      .ok ((periodsSorted rows).map (fun p => (p, coordsEngine gap asc rows p)),
           ribbonsEngine gap bw asc rows)

/-- `color_map[cat]` on an explicit dict, embedded as an association list:
`none` is a `KeyError`. -/
def colorLookup (cmap : List (String × String)) (cat : String) : Option String :=
  (cmap.find? (fun e => e.1 == cat)).map Prod.snd

/-- The bar-emission loop over stacked segments with an explicit color dict
(`ribbon_engine` lines 90–96): each segment looks up `color_map[cat]`; a
missing key raises `KeyError` at that segment. -/
def addBars (cmap : List (String × String)) :
    List Seg → Except String (List (String × String × ℚ × ℚ))
  | [] => .ok []
  | s :: rest =>
    match colorLookup cmap s.category with
    | none => .error s.category
    | some col =>
      match addBars cmap rest with
      | .error e => .error e
      | .ok bars => .ok ((s.category, col, s.yStart, s.yEnd) :: bars)

/-- Bar generation of `ribbon_engine.create_ribbon_chart` when `colors` is an
explicit dict: all periods' stacked segments in order, each consuming a color
lookup. -/
def barsEngine (gap : ℚ) (asc : Bool) (cmap : List (String × String))
    (rows : List Row) : Except String (List (String × String × ℚ × ℚ)) :=
  addBars cmap ((periodsSorted rows).flatMap (fun p => coordsEngine gap asc rows p))

/-- The logistic shape function of `get_sigmoid_curve` (line 11):
`1 / (1 + exp(-10 * (t - 0.5)))`. -/
noncomputable def sigmoid (t : ℝ) : ℝ := 1 / (1 + Real.exp (-10 * (t - 1 / 2)))

/-- `np.linspace(0, 1, n)`: `n` uniformly spaced samples of `[0, 1]`
(for `n = 1` numpy returns `[0.]`, matching `0 / 0 = 0` here). -/
noncomputable def linspace01 (n : ℕ) : List ℝ :=
  (List.range n).map (fun k : ℕ => (k : ℝ) / ((n : ℝ) - 1))

/-- `get_sigmoid_curve(x1, y1, x2, y2, n)` (`ribbon_engine` lines 7–14):
`curve_x = x1 + t * (x2 - x1)` and `curve_y = y1 + sigmoid(t) * (y2 - y1)`
over the `n` uniform samples `t`. -/
noncomputable def get_sigmoid_curve (x1 y1 x2 y2 : ℝ) (n : ℕ) : List ℝ × List ℝ :=
  ((linspace01 n).map (fun t => x1 + t * (x2 - x1)),
   (linspace01 n).map (fun t => y1 + sigmoid t * (y2 - y1)))

/-- The polygon of one ribbon trace (`ribbon_engine` lines 113–120):
`x = concat(cx, cx[::-1])`, `y = concat(cy_t, cy_b[::-1])`, where `cx` is the
linear x-ramp and `cy_t`/`cy_b` the sigmoid y-curves, zipped into points. -/
noncomputable def ribbonPolygon (x1 y1b y1t x2 y2b y2t : ℝ) (n : ℕ) : List (ℝ × ℝ) :=
  List.zip ((get_sigmoid_curve x1 0 x2 1 n).1 ++ ((get_sigmoid_curve x1 0 x2 1 n).1).reverse)
    ((get_sigmoid_curve x1 y1t x2 y2t n).2 ++ ((get_sigmoid_curve x1 y1b x2 y2b n).2).reverse)

/-- Modelled from the spec: one boundary curve as the spec describes it —
`curve_resolution` points, parameter `t` uniform in `[0, 1]`, x linear in `t`
scaled to `[x_start, x_end]`, `y = y1 + f(t) * (y2 - y1)` with
`f(t) = 1 / (1 + exp(-10 * (t - 0.5)))`. -/
noncomputable def specCurve (x1 y1 x2 y2 : ℝ) (n : ℕ) : List (ℝ × ℝ) :=
  (List.range n).map (fun k : ℕ =>
    (x1 + ((k : ℝ) / ((n : ℝ) - 1)) * (x2 - x1),
     y1 + (1 / (1 + Real.exp (-10 * ((k : ℝ) / ((n : ℝ) - 1) - 1 / 2)))) * (y2 - y1)))

/-- Duplicate-free (period, category) keys: the regime in which the
association-list embedding of the Python per-period dicts is exact. -/
def keysNodup (rows : List Row) : Prop :=
  (rows.map (fun r => (r.period, r.category))).Nodup

instance (rows : List Row) : Decidable (keysNodup rows) :=
  List.nodupDecidable _

/-- The gap relation between consecutive stacked segments. -/
def gapRel (gap : ℚ) (s t : Seg) : Prop := t.yStart = s.yEnd + gap

/-- The gap relation on NaN-capable segments. -/
def vgapRel (gap : ℚ) (s t : VSeg) : Prop := t.yStart = vadd s.yEnd (some gap)

/-- A segment with positive height (`y_end - y_start > 0`, false on NaN). -/
def posHeight (s : VSeg) : Bool := vgt0 (vsub s.yEnd s.yStart)

instance (gap : ℚ) (s t : Seg) : Decidable (gapRel gap s t) :=
  inferInstanceAs (Decidable (_ = _))

instance (gap : ℚ) (s t : VSeg) : Decidable (vgapRel gap s t) :=
  inferInstanceAs (Decidable (_ = _))

/-- The keep-condition of the `ribbon_engine` stacking loop: the negation of
the `pd.isna(val) or val <= 0` skip test. -/
def keptRow (r : Row) : Bool := !(isBadVal r.value)

/-- Strict ordering of segments by their vertical start. -/
def yStartLT (s t : Seg) : Prop := s.yStart < t.yStart

instance (s t : Seg) : Decidable (yStartLT s t) :=
  inferInstanceAs (Decidable (_ < _))

instance {ε α : Type} [DecidableEq ε] [DecidableEq α] : DecidableEq (Except ε α) := fun a b =>
  match a, b with
  | .error x, .error y =>
    if h : x = y then .isTrue (h ▸ rfl) else .isFalse (fun hc => h (by injection hc))
  | .ok x, .ok y =>
    if h : x = y then .isTrue (h ▸ rfl) else .isFalse (fun hc => h (by injection hc))
  | .error _, .ok _ => .isFalse (fun hc => by injection hc)
  | .ok _, .error _ => .isFalse (fun hc => by injection hc)

end RibbonChart

namespace RibbonChart

/-! ### Basic facts about the list embeddings of pandas primitives -/

theorem mem_orderedInsertB {α : Type} (le : α → α → Bool) (a b : α) (l : List α) :
    b ∈ orderedInsertB le a l ↔ b = a ∨ b ∈ l := by
  induction l with
  | nil => simp [orderedInsertB]
  | cons c l ih =>
    by_cases h : le a c = true
    · simp [orderedInsertB, h]
    · simp only [orderedInsertB, h, Bool.false_eq_true, if_false, List.mem_cons, ih]
      tauto

theorem mem_insertionSortB {α : Type} (le : α → α → Bool) (b : α) (l : List α) :
    b ∈ insertionSortB le l ↔ b ∈ l := by
  induction l with
  | nil => simp [insertionSortB]
  | cons a l ih => simp [insertionSortB, mem_orderedInsertB, ih]

theorem mem_pdUnique_aux {α : Type} [DecidableEq α] (l : List α) (acc : List α) (b : α) :
    b ∈ l.foldl (fun acc a => if a ∈ acc then acc else acc ++ [a]) acc ↔ b ∈ acc ∨ b ∈ l := by
  induction l generalizing acc with
  | nil => simp
  | cons a l ih =>
    simp only [List.foldl_cons]
    by_cases h : a ∈ acc
    · rw [if_pos h, ih]
      constructor
      · rintro (hb | hb)
        · exact Or.inl hb
        · exact Or.inr (List.mem_cons_of_mem _ hb)
      · rintro (hb | hb)
        · exact Or.inl hb
        · rcases List.mem_cons.mp hb with hb | hb
          · exact Or.inl (hb ▸ h)
          · exact Or.inr hb
    · rw [if_neg h, ih]
      simp only [List.mem_append, List.mem_singleton, List.mem_cons]
      tauto

theorem mem_pdUnique {α : Type} [DecidableEq α] (l : List α) (b : α) :
    b ∈ pdUnique l ↔ b ∈ l := by
  unfold pdUnique
  rw [mem_pdUnique_aux]
  simp

theorem mem_periodRows {rows : List Row} {p : ℚ} {r : Row} :
    r ∈ periodRows rows p ↔ r ∈ rows ∧ r.period = p := by
  simp [periodRows, List.mem_filter]

/-! ### The stacking loop of `ribbon_engine` -/

theorem stackEngine_mem {gap : ℚ} {l : List Row} {c : ℚ} {s : Seg}
    (h : s ∈ stackEngine gap c l) :
    ∃ r ∈ l, r.category = s.category ∧
      ∃ v, r.value = some v ∧ 0 < v ∧ s.yEnd = s.yStart + v := by
  induction l generalizing c with
  | nil => simp [stackEngine] at h
  | cons r rest ih =>
    obtain ⟨pd, cat, val⟩ := r
    cases val with
    | none =>
      simp only [stackEngine] at h
      obtain ⟨r', hr', hprop⟩ := ih h
      exact ⟨r', List.mem_cons_of_mem _ hr', hprop⟩
    | some v =>
      by_cases hv : v ≤ 0
      · simp only [stackEngine, if_pos hv] at h
        obtain ⟨r', hr', hprop⟩ := ih h
        exact ⟨r', List.mem_cons_of_mem _ hr', hprop⟩
      · simp only [stackEngine, if_neg hv] at h
        rcases List.mem_cons.mp h with hs | hs
        · subst hs
          exact ⟨⟨pd, cat, some v⟩, List.mem_cons_self _ _, rfl,
            v, rfl, lt_of_not_ge hv, rfl⟩
        · obtain ⟨r', hr', hprop⟩ := ih hs
          exact ⟨r', List.mem_cons_of_mem _ hr', hprop⟩

theorem stackEngine_head {gap : ℚ} {l : List Row} {c : ℚ} {s : Seg}
    (h : (stackEngine gap c l).head? = some s) : s.yStart = c := by
  induction l generalizing c with
  | nil => simp [stackEngine] at h
  | cons r rest ih =>
    obtain ⟨pd, cat, val⟩ := r
    cases val with
    | none =>
      simp only [stackEngine] at h
      exact ih h
    | some v =>
      by_cases hv : v ≤ 0
      · simp only [stackEngine, if_pos hv] at h
        exact ih h
      · simp only [stackEngine, if_neg hv, List.head?_cons, Option.some.injEq] at h
        subst h
        rfl

theorem stackEngine_chain {gap : ℚ} (c : ℚ) (l : List Row) :
    List.Chain' (gapRel gap) (stackEngine gap c l) := by
  induction l generalizing c with
  | nil => simp [stackEngine]
  | cons r rest ih =>
    obtain ⟨pd, cat, val⟩ := r
    cases val with
    | none => simpa only [stackEngine] using ih c
    | some v =>
      by_cases hv : v ≤ 0
      · simpa only [stackEngine, if_pos hv] using ih c
      · simp only [stackEngine, if_neg hv]
        refine List.chain'_cons'.mpr ⟨?_, ih (c + v + gap)⟩
        intro t ht
        cases hh : (stackEngine gap (c + v + gap) rest).head? with
        | none => rw [hh] at ht; cases ht
        | some u =>
          rw [hh] at ht
          simp only [Option.mem_def, Option.some.injEq] at ht
          subst ht
          have hu : u.yStart = c + v + gap := stackEngine_head hh
          show gapRel gap ⟨cat, c, c + v⟩ u
          unfold gapRel
          exact hu

theorem stackEngine_yStart_ge {gap : ℚ} (hgap : 0 ≤ gap) {c : ℚ} {l : List Row} {s : Seg}
    (h : s ∈ stackEngine gap c l) : c ≤ s.yStart := by
  induction l generalizing c with
  | nil => simp [stackEngine] at h
  | cons r rest ih =>
    obtain ⟨pd, cat, val⟩ := r
    cases val with
    | none =>
      simp only [stackEngine] at h
      exact ih h
    | some v =>
      by_cases hv : v ≤ 0
      · simp only [stackEngine, if_pos hv] at h
        exact ih h
      · simp only [stackEngine, if_neg hv] at h
        rcases List.mem_cons.mp h with hs | hs
        · subst hs; exact le_refl _
        · have hrec := ih hs
          have hv' : 0 < v := lt_of_not_ge hv
          linarith

theorem stackEngine_pairwise {gap : ℚ} (hgap : 0 ≤ gap) (c : ℚ) (l : List Row) :
    List.Pairwise (fun s t : Seg => s.yStart < t.yStart) (stackEngine gap c l) := by
  induction l generalizing c with
  | nil => simp [stackEngine]
  | cons r rest ih =>
    obtain ⟨pd, cat, val⟩ := r
    cases val with
    | none => simpa only [stackEngine] using ih c
    | some v =>
      by_cases hv : v ≤ 0
      · simpa only [stackEngine, if_pos hv] using ih c
      · simp only [stackEngine, if_neg hv]
        refine List.pairwise_cons.mpr ⟨?_, ih (c + v + gap)⟩
        intro t ht
        have := stackEngine_yStart_ge hgap ht
        have hv' : 0 < v := lt_of_not_ge hv
        show c < t.yStart
        linarith

theorem stackEngine_map_category (gap : ℚ) (c : ℚ) (l : List Row) :
    (stackEngine gap c l).map Seg.category =
      (l.filter keptRow).map Row.category := by
  induction l generalizing c with
  | nil => simp [stackEngine]
  | cons r rest ih =>
    obtain ⟨pd, cat, val⟩ := r
    cases val with
    | none => simp only [stackEngine, List.filter_cons, keptRow, isBadVal, Bool.not_true,
        Bool.false_eq_true, if_false, ih]
    | some v =>
      by_cases hv : v ≤ 0
      · simp only [stackEngine, if_pos hv, List.filter_cons, keptRow, isBadVal,
          decide_eq_true hv, Bool.not_true, Bool.false_eq_true, if_false, ih]
      · have : decide (v ≤ 0) = false := decide_eq_false hv
        simp only [stackEngine, if_neg hv, List.filter_cons, keptRow, isBadVal, this,
          Bool.not_false, if_true, List.map_cons, ih]

end RibbonChart

namespace RibbonChart

/-! ### The stacking loops of `employee_hours_chart` and `add_ribbon_scenario` -/

theorem stackHours_map_category (gap : ℚ) (cur : Val) (l : List Row) :
    (stackHours gap cur l).map VSeg.category = l.map Row.category := by
  induction l generalizing cur with
  | nil => simp [stackHours]
  | cons r rest ih => simp [stackHours, ih]

theorem stackScenario_map_category (gap : ℚ) (cur : Val) (l : List Row) :
    (stackScenario gap cur l).map VSeg.category = l.map Row.category := by
  induction l generalizing cur with
  | nil => simp [stackScenario]
  | cons r rest ih => simp [stackScenario, ih]

theorem exists_row_of_mem_stackHours {gap : ℚ} {cur : Val} {l : List Row} {s : VSeg}
    (h : s ∈ stackHours gap cur l) : ∃ r ∈ l, r.category = s.category := by
  have hmap : s.category ∈ (stackHours gap cur l).map VSeg.category :=
    List.mem_map_of_mem _ h
  rw [stackHours_map_category] at hmap
  obtain ⟨r, hr, hcat⟩ := List.mem_map.mp hmap
  exact ⟨r, hr, hcat⟩

theorem exists_row_of_mem_stackScenario {gap : ℚ} {cur : Val} {l : List Row} {s : VSeg}
    (h : s ∈ stackScenario gap cur l) : ∃ r ∈ l, r.category = s.category := by
  have hmap : s.category ∈ (stackScenario gap cur l).map VSeg.category :=
    List.mem_map_of_mem _ h
  rw [stackScenario_map_category] at hmap
  obtain ⟨r, hr, hcat⟩ := List.mem_map.mp hmap
  exact ⟨r, hr, hcat⟩

theorem stackScenario_filter_aux (gap : ℚ) (l : List Row) (c : ℚ) :
    (∀ s, ((stackScenario gap (some c) l).filter posHeight).head? = some s →
      s.yStart = some c) ∧
    List.Chain' (vgapRel gap) ((stackScenario gap (some c) l).filter posHeight) := by
  induction l generalizing c with
  | nil => simp [stackScenario]
  | cons r rest ih =>
    obtain ⟨pd, cat, val⟩ := r
    cases val with
    | none =>
      simpa only [stackScenario, vgt0, vadd, posHeight, vsub, List.filter_cons,
        Bool.false_eq_true, if_false] using ih c
    | some v =>
      by_cases hv : 0 < v
      · have hsub : (some (c + v - c) : Val) = some v := by rw [add_sub_cancel_left]
        have hpos : posHeight ⟨cat, some c, vadd (some c) (some v)⟩ = true := by
          simp only [posHeight, vadd, vsub, add_sub_cancel_left, vgt0]
          exact decide_eq_true hv
        have hcur : (if vgt0 (some v) then vadd (some c) (vadd (some v) (some gap))
            else some c) = some (c + (v + gap)) := by
          simp only [vgt0, decide_eq_true hv, if_true, vadd]
        constructor
        · intro s hs
          simp only [stackScenario, hcur, List.filter_cons, hpos, if_true,
            List.head?_cons, Option.some.injEq] at hs
          subst hs
          rfl
        · simp only [stackScenario, hcur, List.filter_cons, hpos, if_true]
          refine List.chain'_cons'.mpr ⟨?_, (ih (c + (v + gap))).2⟩
          intro u hu
          cases hh : ((stackScenario gap (some (c + (v + gap))) rest).filter posHeight).head? with
          | none => rw [hh] at hu; cases hu
          | some w =>
            rw [hh] at hu
            simp only [Option.mem_def, Option.some.injEq] at hu
            subst hu
            have hw : w.yStart = some (c + (v + gap)) := (ih (c + (v + gap))).1 w hh
            show w.yStart = vadd (vadd (some c) (some v)) (some gap)
            rw [hw]
            simp only [vadd, Option.some.injEq]
            ring
      · have hpos : posHeight ⟨cat, some c, vadd (some c) (some v)⟩ = false := by
          simp only [posHeight, vadd, vsub, add_sub_cancel_left, vgt0]
          exact decide_eq_false hv
        have hcur : (if vgt0 (some v) then vadd (some c) (vadd (some v) (some gap))
            else some c) = some c := by
          simp only [vgt0, decide_eq_false hv, Bool.false_eq_true, if_false]
        simpa only [stackScenario, hcur, List.filter_cons, hpos, Bool.false_eq_true,
          if_false] using ih c

/-! ### Coordinate lookup -/

theorem findSeg_isSome {segs : List Seg} {cat : String} :
    (findSeg segs cat).isSome ↔ ∃ s ∈ segs, s.category = cat := by
  unfold findSeg
  rw [List.find?_isSome]
  simp only [beq_iff_eq]

theorem findVSeg_isSome {segs : List VSeg} {cat : String} :
    (findVSeg segs cat).isSome ↔ ∃ s ∈ segs, s.category = cat := by
  unfold findVSeg
  rw [List.find?_isSome]
  simp only [beq_iff_eq]

theorem findSeg_eq_some {segs : List Seg} {cat : String} {s : Seg}
    (h : findSeg segs cat = some s) : s ∈ segs ∧ s.category = cat := by
  refine ⟨List.mem_of_find?_eq_some h, ?_⟩
  have := List.find?_some h
  exact beq_iff_eq.mp this

theorem findVSeg_eq_some {segs : List VSeg} {cat : String} {s : VSeg}
    (h : findVSeg segs cat = some s) : s ∈ segs ∧ s.category = cat := by
  refine ⟨List.mem_of_find?_eq_some h, ?_⟩
  have := List.find?_some h
  exact beq_iff_eq.mp this

theorem findSeg_eq_none {segs : List Seg} {cat : String}
    (h : ∀ s ∈ segs, s.category ≠ cat) : findSeg segs cat = none := by
  unfold findSeg
  rw [List.find?_eq_none]
  intro s hs
  simpa using h s hs

end RibbonChart

namespace RibbonChart

/-! ### Characterisations of the three ribbon loops -/

theorem mem_ribbonsEngine {gap bw : ℚ} {asc : Bool} {rows : List Row} {rb : Ribbon} :
    rb ∈ ribbonsEngine gap bw asc rows ↔
      ∃ i p1 p2 cat s1 s2,
        (periodsSorted rows)[i]? = some p1 ∧
        (periodsSorted rows)[i + 1]? = some p2 ∧
        cat ∈ catsSorted rows ∧
        findSeg (coordsEngine gap asc rows p1) cat = some s1 ∧
        findSeg (coordsEngine gap asc rows p2) cat = some s2 ∧
        rb = ⟨cat, i, p1, p2, (i : ℚ) + bw / 2, ((i : ℚ) + 1) - bw / 2,
              s1.yStart, s1.yEnd, s2.yStart, s2.yEnd⟩ := by
  unfold ribbonsEngine
  rw [List.mem_flatMap]
  constructor
  · rintro ⟨i, hi, hmem⟩
    rw [List.mem_range] at hi
    cases h1 : (periodsSorted rows)[i]? with
    | none => rw [h1] at hmem; simp at hmem
    | some p1 =>
      cases h2 : (periodsSorted rows)[i + 1]? with
      | none => rw [h1, h2] at hmem; simp at hmem
      | some p2 =>
        rw [h1, h2] at hmem
        simp only [List.mem_filterMap] at hmem
        obtain ⟨cat, hcat, hf⟩ := hmem
        cases hf1 : findSeg (coordsEngine gap asc rows p1) cat with
        | none => rw [hf1] at hf; simp at hf
        | some s1 =>
          cases hf2 : findSeg (coordsEngine gap asc rows p2) cat with
          | none => rw [hf1, hf2] at hf; simp at hf
          | some s2 =>
            rw [hf1, hf2] at hf
            simp only [Option.some.injEq] at hf
            exact ⟨i, p1, p2, cat, s1, s2, h1, h2, hcat, hf1, hf2, hf.symm⟩
  · rintro ⟨i, p1, p2, cat, s1, s2, h1, h2, hcat, hf1, hf2, rfl⟩
    refine ⟨i, ?_, ?_⟩
    · rw [List.mem_range]
      have hlen : i + 1 < (periodsSorted rows).length := (List.getElem?_eq_some.mp h2).1
      omega
    · rw [h1, h2]
      simp only [List.mem_filterMap]
      exact ⟨cat, hcat, by rw [hf1, hf2]⟩

theorem mem_ribbonsHours {gap : ℚ} {rows : List Row} {rb : VRibbon} :
    rb ∈ ribbonsHours gap rows ↔
      ∃ i p1 p2 cat s1 s2,
        (periodsSeen rows)[i]? = some p1 ∧
        (periodsSeen rows)[i + 1]? = some p2 ∧
        cat ∈ catsSeen rows ∧
        findVSeg (coordsHours gap rows p1) cat = some s1 ∧
        findVSeg (coordsHours gap rows p2) cat = some s2 ∧
        rb = ⟨cat, i, p1, p2, (i : ℚ) + hoursBarWidth / 2,
              ((i : ℚ) + 1) - hoursBarWidth / 2,
              s1.yStart, s1.yEnd, s2.yStart, s2.yEnd⟩ := by
  unfold ribbonsHours
  rw [List.mem_flatMap]
  constructor
  · rintro ⟨i, hi, hmem⟩
    rw [List.mem_range] at hi
    cases h1 : (periodsSeen rows)[i]? with
    | none => rw [h1] at hmem; simp at hmem
    | some p1 =>
      cases h2 : (periodsSeen rows)[i + 1]? with
      | none => rw [h1, h2] at hmem; simp at hmem
      | some p2 =>
        rw [h1, h2] at hmem
        simp only [List.mem_filterMap] at hmem
        obtain ⟨cat, hcat, hf⟩ := hmem
        cases hf1 : findVSeg (coordsHours gap rows p1) cat with
        | none => rw [hf1] at hf; simp at hf
        | some s1 =>
          cases hf2 : findVSeg (coordsHours gap rows p2) cat with
          | none => rw [hf1, hf2] at hf; simp at hf
          | some s2 =>
            rw [hf1, hf2] at hf
            simp only [Option.some.injEq] at hf
            exact ⟨i, p1, p2, cat, s1, s2, h1, h2, hcat, hf1, hf2, hf.symm⟩
  · rintro ⟨i, p1, p2, cat, s1, s2, h1, h2, hcat, hf1, hf2, rfl⟩
    refine ⟨i, ?_, ?_⟩
    · rw [List.mem_range]
      have hlen : i + 1 < (periodsSeen rows).length := (List.getElem?_eq_some.mp h2).1
      omega
    · rw [h1, h2]
      simp only [List.mem_filterMap]
      exact ⟨cat, hcat, by rw [hf1, hf2]⟩

theorem mem_ribbonsScenario {gap : ℚ} {rows : List Row} {rb : VRibbon} :
    rb ∈ ribbonsScenario gap rows ↔
      ∃ i p1 p2 cat s1 s2,
        (periodsSorted rows)[i]? = some p1 ∧
        (periodsSorted rows)[i + 1]? = some p2 ∧
        cat ∈ catsSorted rows ∧
        findVSeg (coordsScenario gap rows p1) cat = some s1 ∧
        findVSeg (coordsScenario gap rows p2) cat = some s2 ∧
        ¬(veq0 (vsub s1.yEnd s1.yStart) = true ∧ veq0 (vsub s2.yEnd s2.yStart) = true) ∧
        rb = ⟨cat, i, p1, p2, p1 + scenarioBarWidth / 2, p2 - scenarioBarWidth / 2,
              s1.yStart, s1.yEnd, s2.yStart, s2.yEnd⟩ := by
  unfold ribbonsScenario
  rw [List.mem_flatMap]
  constructor
  · rintro ⟨i, hi, hmem⟩
    rw [List.mem_range] at hi
    cases h1 : (periodsSorted rows)[i]? with
    | none => rw [h1] at hmem; simp at hmem
    | some p1 =>
      cases h2 : (periodsSorted rows)[i + 1]? with
      | none => rw [h1, h2] at hmem; simp at hmem
      | some p2 =>
        rw [h1, h2] at hmem
        simp only [List.mem_filterMap] at hmem
        obtain ⟨cat, hcat, hf⟩ := hmem
        cases hf1 : findVSeg (coordsScenario gap rows p1) cat with
        | none => rw [hf1] at hf; simp at hf
        | some s1 =>
          cases hf2 : findVSeg (coordsScenario gap rows p2) cat with
          | none => rw [hf1, hf2] at hf; simp at hf
          | some s2 =>
            rw [hf1, hf2] at hf
            cases hb : (veq0 (vsub s1.yEnd s1.yStart) && veq0 (vsub s2.yEnd s2.yStart)) with
            | true => simp only [hb, if_true] at hf; cases hf
            | false =>
              simp only [hb, Bool.false_eq_true, if_false, Option.some.injEq] at hf
              refine ⟨i, p1, p2, cat, s1, s2, h1, h2, hcat, hf1, hf2, ?_, hf.symm⟩
              intro hand
              rw [hand.1, hand.2] at hb
              simp at hb
  · rintro ⟨i, p1, p2, cat, s1, s2, h1, h2, hcat, hf1, hf2, hz, rfl⟩
    refine ⟨i, ?_, ?_⟩
    · rw [List.mem_range]
      have hlen : i + 1 < (periodsSorted rows).length := (List.getElem?_eq_some.mp h2).1
      omega
    · rw [h1, h2]
      simp only [List.mem_filterMap]
      refine ⟨cat, hcat, ?_⟩
      have hz' : (veq0 (vsub s1.yEnd s1.yStart) && veq0 (vsub s2.yEnd s2.yStart)) = false := by
        cases hb : veq0 (vsub s1.yEnd s1.yStart) with
        | false => rw [Bool.false_and]
        | true =>
          cases hc : veq0 (vsub s2.yEnd s2.yStart) with
          | false => rw [Bool.and_false]
          | true => exact absurd ⟨hb, hc⟩ hz
      rw [hf1, hf2]
      simp only [hz', Bool.false_eq_true, if_false]

end RibbonChart

namespace RibbonChart

/-! ### Claim C1 — exclusion of missing/NaN/non-positive values -/

attribute [local semireducible] Rat.add Rat.sub Rat.mul Rat.inv in
/-- Claim C1, counterexample: `employee_hours_chart.create_ribbon_chart` does
not filter values.  For the single observation (period 1, "A", −5) — a value
≤ 0 that the claim says is excluded from layout in every entry point — the
period's coordinate map does contain an entry for "A" (with extents
(0, −5)). -/
theorem C1_counterexample :
    findVSeg (coordsHours 2 [⟨1, "A", some (-5)⟩] 1) "A" =
      some ⟨"A", some 0, some (-5)⟩ := by
  decide

/-- Claim C1 (amended): in `ribbon_engine.create_ribbon_chart` only — for any
(period, category) all of whose observations have a missing/NaN or ≤ 0 value,
the period's coordinate map has no entry for that category and no emitted
ribbon for that category touches that period.  The other two entry points
record coordinate entries regardless of the value (see the counterexample). -/
theorem C1_amended (gap bw : ℚ) (asc : Bool) (rows : List Row) (p : ℚ) (cat : String)
    (hbad : ∀ r ∈ rows, r.period = p → r.category = cat → isBadVal r.value = true) :
    findSeg (coordsEngine gap asc rows p) cat = none ∧
    ∀ rb ∈ ribbonsEngine gap bw asc rows, rb.category = cat → rb.p1 ≠ p ∧ rb.p2 ≠ p := by
  have hnone : findSeg (coordsEngine gap asc rows p) cat = none := by
    apply findSeg_eq_none
    intro s hs hcat
    obtain ⟨r, hr, hrcat, v, hv, hvpos, _⟩ := stackEngine_mem hs
    have hr' : r ∈ periodRows rows p := (mem_insertionSortB _ _ _).mp hr
    obtain ⟨hrow, hperiod⟩ := mem_periodRows.mp hr'
    have hbadr := hbad r hrow hperiod (by rw [hrcat, hcat])
    rw [hv] at hbadr
    simp only [isBadVal, decide_eq_true_eq] at hbadr
    exact absurd hbadr (not_le.mpr hvpos)
  refine ⟨hnone, ?_⟩
  intro rb hmem hcat
  obtain ⟨i, p1, p2, cat', s1, s2, h1, h2, hcat', hf1, hf2, hrb⟩ :=
    mem_ribbonsEngine.mp hmem
  have hcats : cat' = cat := by rw [← hcat, hrb]
  subst hcats
  constructor
  · intro hp
    have : rb.p1 = p1 := by rw [hrb]
    rw [this] at hp
    subst hp
    rw [hnone] at hf1
    cases hf1
  · intro hp
    have : rb.p2 = p2 := by rw [hrb]
    rw [this] at hp
    subst hp
    rw [hnone] at hf2
    cases hf2

attribute [local semireducible] Rat.add Rat.sub Rat.mul Rat.inv in
/-- Claim C1, witness for the amended theorem: the observation
(period 1, "A", 0) has value ≤ 0, and the engine's period-1 coordinate map
has no entry for "A". -/
theorem C1_amended_witness :
    findSeg (coordsEngine 2 true [⟨1, "A", some 0⟩] 1) "A" = none :=
  (C1_amended 2 (2/5) true [⟨1, "A", some 0⟩] 1 "A" (by decide)).1

/-! ### Claim C2 — the gap invariant -/

attribute [local semireducible] Rat.add Rat.sub Rat.mul Rat.inv in
/-- Claim C2, counterexample: in `add_ribbon_scenario`, a category that is
0-filled for a period still gets a zero-height coordinate entry that does not
consume a gap.  With gap = 2, category "C" present only in period 2, the
period-1 stack is C = (0,0), A = (0,5), B = (7,14): the consecutive segments
C and A are at distance 0, not gap = 2. -/
theorem C2_counterexample :
    coordsScenario 2 [⟨1, "A", some 5⟩, ⟨1, "B", some 7⟩, ⟨2, "A", some 1⟩,
        ⟨2, "B", some 1⟩, ⟨2, "C", some 1⟩] 1 =
      [⟨"C", some 0, some 0⟩, ⟨"A", some 0, some 5⟩, ⟨"B", some 7, some 14⟩] ∧
    vsub (some 0) (some 0) ≠ some (2 : ℚ) := by
  constructor
  · decide
  · decide

/-- Claim C2 (amended): the gap invariant `next.y_start = current.y_end + gap`
holds between all consecutive stacked segments in `ribbon_engine` (whose
coordinate maps contain positive-height segments only), and in
`add_ribbon_scenario` between consecutive positive-height segments; in both,
the first (positive-height) segment of each period starts at offset 0.
Zero-height 0-filled entries of `add_ribbon_scenario` sit at the current
offset without consuming a gap (see the counterexample). -/
theorem C2_amended (gap : ℚ) (asc : Bool) (rows : List Row) (p : ℚ)
    (_hk : keysNodup rows) :
    (List.Chain' (gapRel gap) (coordsEngine gap asc rows p) ∧
      ∀ s, (coordsEngine gap asc rows p).head? = some s → s.yStart = 0) ∧
    (List.Chain' (vgapRel gap) ((coordsScenario gap rows p).filter posHeight) ∧
      ∀ s, ((coordsScenario gap rows p).filter posHeight).head? = some s →
        s.yStart = some 0) := by
  refine ⟨⟨stackEngine_chain 0 _, fun s hs => stackEngine_head hs⟩, ?_, ?_⟩
  · exact (stackScenario_filter_aux gap _ 0).2
  · exact fun s hs => (stackScenario_filter_aux gap _ 0).1 s hs

attribute [local semireducible] Rat.add Rat.sub Rat.mul Rat.inv in
/-- Claim C2, witness for the amended theorem: the gap chain on a concrete
two-segment period of the engine. -/
theorem C2_amended_witness :
    List.Chain' (gapRel 2) (coordsEngine 2 true [⟨1, "A", some 5⟩, ⟨1, "B", some 7⟩] 1) :=
  (C2_amended 2 true [⟨1, "A", some 5⟩, ⟨1, "B", some 7⟩] 1 (by decide)).1.1

/-! ### Claim C4 — per-period sort order -/

attribute [local semireducible] Rat.add Rat.sub Rat.mul Rat.inv in
/-- Claim C4, counterexample: `employee_hours_chart.create_ribbon_chart`
sorts by value only (line 64), with no category tie-break.  For the tied
observations (1, "B", 5), (1, "A", 5) the stable sort keeps input order, so
the stacked order is B, A — while sorting by (value, category-identifier),
as the claim states, yields A, B. -/
theorem C4_counterexample :
    (coordsHours 2 [⟨1, "B", some 5⟩, ⟨1, "A", some 5⟩] 1).map VSeg.category = ["B", "A"] ∧
    (insertionSortB (engineLE true) [⟨1, "B", some 5⟩, ⟨1, "A", some 5⟩]).map Row.category
      = ["A", "B"] ∧
    (["B", "A"] : List String) ≠ ["A", "B"] := by
  refine ⟨by decide, by decide, by decide⟩

/-- Claim C4 (amended): in `ribbon_engine.create_ribbon_chart` the stacked
segments are exactly the kept (positive, non-NaN) rows of the period in
(value, category) order — the ascending flag applying to value and the
category tie-break always ascending — and for a non-negative gap their
`y_start`s are strictly increasing, so sorting segments by `y_start` returns
the same order.  In `add_ribbon_scenario` the stacked segments are the
normalised period rows in (value, category) ascending order.
`employee_hours_chart` sorts by value only, so tied categories stay in input
order (see the counterexample). -/
theorem C4_amended (gap : ℚ) (asc : Bool) (rows : List Row) (p : ℚ)
    (_hk : keysNodup rows) :
    ((coordsEngine gap asc rows p).map Seg.category =
      ((insertionSortB (engineLE asc) (periodRows rows p)).filter keptRow).map
        Row.category) ∧
    (0 ≤ gap → List.Pairwise yStartLT (coordsEngine gap asc rows p)) ∧
    ((coordsScenario gap rows p).map VSeg.category =
      (insertionSortB (engineLE true) (periodRows (dfNorm rows) p)).map Row.category) := by
  refine ⟨stackEngine_map_category gap 0 _, ?_, ?_⟩
  · intro hgap
    exact stackEngine_pairwise hgap 0 _
  · exact stackScenario_map_category gap (some 0) _

attribute [local semireducible] Rat.add Rat.sub Rat.mul Rat.inv in
/-- Claim C4, witness for the amended theorem: the engine's stack order on a
concrete period equals the kept rows of the (value, category) sort. -/
theorem C4_amended_witness :
    (coordsEngine 2 true [⟨1, "A", some 5⟩, ⟨1, "B", some 3⟩] 1).map Seg.category =
      ((insertionSortB (engineLE true)
        (periodRows [⟨1, "A", some 5⟩, ⟨1, "B", some 3⟩] 1)).filter keptRow).map
        Row.category :=
  (C4_amended 2 true [⟨1, "A", some 5⟩, ⟨1, "B", some 3⟩] 1 (by decide)).1

end RibbonChart

namespace RibbonChart

/-! ### Claim C3 — ribbon existence -/

theorem cat_mem_catsSorted_of_findSeg {gap : ℚ} {asc : Bool} {rows : List Row}
    {p : ℚ} {cat : String} {s : Seg}
    (h : findSeg (coordsEngine gap asc rows p) cat = some s) :
    cat ∈ catsSorted rows := by
  obtain ⟨hs, hcat⟩ := findSeg_eq_some h
  obtain ⟨r, hr, hrcat, _⟩ := stackEngine_mem hs
  have hr' : r ∈ periodRows rows p := (mem_insertionSortB _ _ _).mp hr
  have hrow : r ∈ rows := (mem_periodRows.mp hr').1
  have : cat ∈ rows.map Row.category := by
    rw [← hcat, ← hrcat]
    exact List.mem_map_of_mem _ hrow
  unfold catsSorted
  rw [mem_insertionSortB, mem_pdUnique]
  exact this

theorem cat_mem_catsSeen_of_findVSeg {gap : ℚ} {rows : List Row}
    {p : ℚ} {cat : String} {s : VSeg}
    (h : findVSeg (coordsHours gap rows p) cat = some s) :
    cat ∈ catsSeen rows := by
  obtain ⟨hs, hcat⟩ := findVSeg_eq_some h
  obtain ⟨r, hr, hrcat⟩ := exists_row_of_mem_stackHours hs
  have hr' : r ∈ periodRows rows p := (mem_insertionSortB _ _ _).mp hr
  have hrow : r ∈ rows := (mem_periodRows.mp hr').1
  have : cat ∈ rows.map Row.category := by
    rw [← hcat, ← hrcat]
    exact List.mem_map_of_mem _ hrow
  unfold catsSeen
  rw [mem_pdUnique]
  exact this

theorem mem_dfNorm_self {rows : List Row} {p : ℚ} {cat : String}
    (hp : p ∈ periodsSorted rows) (hc : cat ∈ catsSorted rows) :
    (⟨p, cat, normValue rows p cat⟩ : Row) ∈ dfNorm rows := by
  unfold dfNorm
  rw [List.mem_flatMap]
  exact ⟨p, hp, List.mem_map_of_mem _ hc⟩

theorem coordsScenario_covers {gap : ℚ} {rows : List Row} {p : ℚ} {cat : String}
    (hp : p ∈ periodsSorted rows) (hc : cat ∈ catsSorted rows) :
    (findVSeg (coordsScenario gap rows p) cat).isSome = true := by
  rw [findVSeg_isSome]
  have hrow : (⟨p, cat, normValue rows p cat⟩ : Row) ∈
      periodRows (dfNorm rows) p :=
    mem_periodRows.mpr ⟨mem_dfNorm_self hp hc, rfl⟩
  have hsorted : (⟨p, cat, normValue rows p cat⟩ : Row) ∈
      insertionSortB (engineLE true) (periodRows (dfNorm rows) p) :=
    (mem_insertionSortB _ _ _).mpr hrow
  have hmap : cat ∈ (insertionSortB (engineLE true)
      (periodRows (dfNorm rows) p)).map Row.category :=
    List.mem_map_of_mem _ hsorted
  rw [← stackScenario_map_category gap (some 0)] at hmap
  obtain ⟨s, hs, hcat⟩ := List.mem_map.mp hmap
  exact ⟨s, hs, hcat⟩

attribute [local semireducible] Rat.add Rat.sub Rat.mul Rat.inv in
/-- Claim C3, counterexample: in `add_ribbon_scenario` the coordinate map
contains category "B" in both adjacent periods (0-filled, zero height), yet
no ribbon is emitted for "B": the claimed "ribbon iff present in both maps"
equivalence fails there. -/
theorem C3_counterexample :
    (findVSeg (coordsScenario 2
      [⟨1, "A", some 5⟩, ⟨2, "A", some 5⟩, ⟨1, "B", some 0⟩] 1) "B").isSome = true ∧
    (findVSeg (coordsScenario 2
      [⟨1, "A", some 5⟩, ⟨2, "A", some 5⟩, ⟨1, "B", some 0⟩] 2) "B").isSome = true ∧
    (ribbonsScenario 2
      [⟨1, "A", some 5⟩, ⟨2, "A", some 5⟩, ⟨1, "B", some 0⟩]).map VRibbon.category
      = ["A"] := by
  refine ⟨by decide, by decide, by decide⟩

/-- Claim C3 (amended): in `ribbon_engine.create_ribbon_chart` and
`employee_hours_chart.create_ribbon_chart`, a ribbon for (category, adjacent
period pair) is emitted iff the coordinate map contains a segment for that
category in both periods.  In `add_ribbon_scenario` the normalised coordinate
map contains every category in every period, and a ribbon is emitted iff the
two endpoint segments are not both of zero height (see the counterexample). -/
theorem C3_amended (gap bw : ℚ) (asc : Bool) (rows : List Row) :
    (∀ i p1 p2 cat, (periodsSorted rows)[i]? = some p1 →
      (periodsSorted rows)[i + 1]? = some p2 →
      ((∃ rb ∈ ribbonsEngine gap bw asc rows, rb.category = cat ∧ rb.idx = i) ↔
        (findSeg (coordsEngine gap asc rows p1) cat).isSome = true ∧
        (findSeg (coordsEngine gap asc rows p2) cat).isSome = true)) ∧
    (∀ i p1 p2 cat, (periodsSeen rows)[i]? = some p1 →
      (periodsSeen rows)[i + 1]? = some p2 →
      ((∃ rb ∈ ribbonsHours gap rows, rb.category = cat ∧ rb.idx = i) ↔
        (findVSeg (coordsHours gap rows p1) cat).isSome = true ∧
        (findVSeg (coordsHours gap rows p2) cat).isSome = true)) ∧
    (∀ p cat, p ∈ periodsSorted rows → cat ∈ catsSorted rows →
      (findVSeg (coordsScenario gap rows p) cat).isSome = true) ∧
    (∀ i p1 p2 cat s1 s2, (periodsSorted rows)[i]? = some p1 →
      (periodsSorted rows)[i + 1]? = some p2 →
      cat ∈ catsSorted rows →
      findVSeg (coordsScenario gap rows p1) cat = some s1 →
      findVSeg (coordsScenario gap rows p2) cat = some s2 →
      ((∃ rb ∈ ribbonsScenario gap rows, rb.category = cat ∧ rb.idx = i) ↔
        ¬(veq0 (vsub s1.yEnd s1.yStart) = true ∧
          veq0 (vsub s2.yEnd s2.yStart) = true))) := by
  refine ⟨?_, ?_, fun p cat hp hc => coordsScenario_covers hp hc, ?_⟩
  · intro i p1 p2 cat h1 h2
    constructor
    · rintro ⟨rb, hmem, hcat, hidx⟩
      obtain ⟨i', p1', p2', cat', s1, s2, h1', h2', _, hf1, hf2, hrb⟩ :=
        mem_ribbonsEngine.mp hmem
      have hii : i' = i := by rw [← hidx, hrb]
      subst hii
      have hcc : cat' = cat := by rw [← hcat, hrb]
      subst hcc
      have hp1 : p1' = p1 := by
        have h := h1'.symm.trans h1
        injection h
      have hp2 : p2' = p2 := by
        have h := h2'.symm.trans h2
        injection h
      subst hp1
      subst hp2
      rw [hf1, hf2]
      exact ⟨rfl, rfl⟩
    · rintro ⟨hs1, hs2⟩
      obtain ⟨s1, hf1⟩ := Option.isSome_iff_exists.mp hs1
      obtain ⟨s2, hf2⟩ := Option.isSome_iff_exists.mp hs2
      have hcat : cat ∈ catsSorted rows := cat_mem_catsSorted_of_findSeg hf1
      refine ⟨⟨cat, i, p1, p2, (i : ℚ) + bw / 2, ((i : ℚ) + 1) - bw / 2,
        s1.yStart, s1.yEnd, s2.yStart, s2.yEnd⟩, ?_, rfl, rfl⟩
      exact mem_ribbonsEngine.mpr ⟨i, p1, p2, cat, s1, s2, h1, h2, hcat, hf1, hf2, rfl⟩
  · intro i p1 p2 cat h1 h2
    constructor
    · rintro ⟨rb, hmem, hcat, hidx⟩
      obtain ⟨i', p1', p2', cat', s1, s2, h1', h2', _, hf1, hf2, hrb⟩ :=
        mem_ribbonsHours.mp hmem
      have hii : i' = i := by rw [← hidx, hrb]
      subst hii
      have hcc : cat' = cat := by rw [← hcat, hrb]
      subst hcc
      have hp1 : p1' = p1 := by
        have h := h1'.symm.trans h1
        injection h
      have hp2 : p2' = p2 := by
        have h := h2'.symm.trans h2
        injection h
      subst hp1
      subst hp2
      rw [hf1, hf2]
      exact ⟨rfl, rfl⟩
    · rintro ⟨hs1, hs2⟩
      obtain ⟨s1, hf1⟩ := Option.isSome_iff_exists.mp hs1
      obtain ⟨s2, hf2⟩ := Option.isSome_iff_exists.mp hs2
      have hcat : cat ∈ catsSeen rows := cat_mem_catsSeen_of_findVSeg hf1
      refine ⟨⟨cat, i, p1, p2, (i : ℚ) + hoursBarWidth / 2,
        ((i : ℚ) + 1) - hoursBarWidth / 2,
        s1.yStart, s1.yEnd, s2.yStart, s2.yEnd⟩, ?_, rfl, rfl⟩
      exact mem_ribbonsHours.mpr ⟨i, p1, p2, cat, s1, s2, h1, h2, hcat, hf1, hf2, rfl⟩
  · intro i p1 p2 cat s1 s2 h1 h2 hcat hf1 hf2
    constructor
    · rintro ⟨rb, hmem, hcatr, hidx⟩
      obtain ⟨i', p1', p2', cat', s1', s2', h1', h2', _, hf1', hf2', hz', hrb⟩ :=
        mem_ribbonsScenario.mp hmem
      have hii : i' = i := by rw [← hidx, hrb]
      subst hii
      have hcc : cat' = cat := by rw [← hcatr, hrb]
      subst hcc
      have hp1 : p1' = p1 := by
        have h := h1'.symm.trans h1
        injection h
      have hp2 : p2' = p2 := by
        have h := h2'.symm.trans h2
        injection h
      subst hp1
      subst hp2
      have hs1 : s1' = s1 := by
        have h := hf1'.symm.trans hf1
        injection h
      have hs2 : s2' = s2 := by
        have h := hf2'.symm.trans hf2
        injection h
      subst hs1
      subst hs2
      exact hz'
    · intro hz
      refine ⟨⟨cat, i, p1, p2, p1 + scenarioBarWidth / 2, p2 - scenarioBarWidth / 2,
        s1.yStart, s1.yEnd, s2.yStart, s2.yEnd⟩, ?_, rfl, rfl⟩
      exact mem_ribbonsScenario.mpr ⟨i, p1, p2, cat, s1, s2, h1, h2, hcat, hf1, hf2, hz, rfl⟩

attribute [local semireducible] Rat.add Rat.sub Rat.mul Rat.inv in
/-- Claim C3, witness for the amended theorem: the scenario coordinate map of
a concrete one-observation input contains its category. -/
theorem C3_amended_witness :
    (findVSeg (coordsScenario 2 [⟨1, "A", some 5⟩] 1) "A").isSome = true :=
  (C3_amended 2 (2/5) true [⟨1, "A", some 5⟩]).2.2.1 1 "A" (by decide) (by decide)

end RibbonChart

namespace RibbonChart

/-! ### Claim C6 — the horizontal span of a ribbon -/

attribute [local semireducible] Rat.add Rat.sub Rat.mul Rat.inv in
/-- Claim C6, counterexample: `add_ribbon_scenario` computes
`x1, x2 = p1 + bar_width/2, p2 - bar_width/2` from the period *values*
(line 96), not the 0-based index.  With periods 2020 and 2021 the emitted
ribbon spans 2020.175 to 2020.825, while the claimed index-based span is
0.175 to 0.825. -/
theorem C6_counterexample :
    (ribbonsScenario 2 [⟨2020, "A", some 5⟩, ⟨2021, "A", some 3⟩]).map
      (fun rb => (rb.x1, rb.x2)) = [(2020 + 7/40, 2021 - 7/40)] ∧
    (2020 + 7/40 : ℚ) ≠ ((0 : ℕ) : ℚ) + (7/20) / 2 := by
  refine ⟨by decide, by decide⟩

/-- Claim C6 (amended): in `ribbon_engine.create_ribbon_chart` and
`employee_hours_chart.create_ribbon_chart`, every emitted ribbon spans
`x1 = i + bar_width/2` to `x2 = (i+1) - bar_width/2`, where `i` is the
0-based index of its left period in the ordered period sequence (sorted
order for the engine, first-seen order for the hours chart), independent of
the period's value.  In `add_ribbon_scenario` the span is computed from the
period values themselves: `x1 = p1 + bar_width/2`, `x2 = p2 - bar_width/2`
(see the counterexample). -/
theorem C6_amended (gap bw : ℚ) (asc : Bool) (rows : List Row) :
    (∀ rb ∈ ribbonsEngine gap bw asc rows,
      (periodsSorted rows)[rb.idx]? = some rb.p1 ∧
      (periodsSorted rows)[rb.idx + 1]? = some rb.p2 ∧
      rb.x1 = (rb.idx : ℚ) + bw / 2 ∧ rb.x2 = ((rb.idx : ℚ) + 1) - bw / 2) ∧
    (∀ rb ∈ ribbonsHours gap rows,
      (periodsSeen rows)[rb.idx]? = some rb.p1 ∧
      (periodsSeen rows)[rb.idx + 1]? = some rb.p2 ∧
      rb.x1 = (rb.idx : ℚ) + hoursBarWidth / 2 ∧
      rb.x2 = ((rb.idx : ℚ) + 1) - hoursBarWidth / 2) ∧
    (∀ rb ∈ ribbonsScenario gap rows,
      (periodsSorted rows)[rb.idx]? = some rb.p1 ∧
      (periodsSorted rows)[rb.idx + 1]? = some rb.p2 ∧
      rb.x1 = rb.p1 + scenarioBarWidth / 2 ∧
      rb.x2 = rb.p2 - scenarioBarWidth / 2) := by
  refine ⟨?_, ?_, ?_⟩
  · intro rb hmem
    obtain ⟨i, p1, p2, cat, s1, s2, h1, h2, hcat, hf1, hf2, hrb⟩ :=
      mem_ribbonsEngine.mp hmem
    subst hrb
    exact ⟨h1, h2, rfl, rfl⟩
  · intro rb hmem
    obtain ⟨i, p1, p2, cat, s1, s2, h1, h2, hcat, hf1, hf2, hrb⟩ :=
      mem_ribbonsHours.mp hmem
    subst hrb
    exact ⟨h1, h2, rfl, rfl⟩
  · intro rb hmem
    obtain ⟨i, p1, p2, cat, s1, s2, h1, h2, hcat, hf1, hf2, hz, hrb⟩ :=
      mem_ribbonsScenario.mp hmem
    subst hrb
    exact ⟨h1, h2, rfl, rfl⟩

attribute [local semireducible] Rat.add Rat.sub Rat.mul Rat.inv in
/-- Claim C6, witness for the amended theorem: the engine ribbon of a
concrete two-period input has the index-based span ι(0)+0.2 to ι(1)−0.2. -/
theorem C6_amended_witness :
    (periodsSorted [⟨1, "A", some 5⟩, ⟨2, "A", some 3⟩])[(0 : ℕ)]? = some 1 ∧
    (periodsSorted [⟨1, "A", some 5⟩, ⟨2, "A", some 3⟩])[(0 : ℕ) + 1]? = some 2 ∧
    (1/5 : ℚ) = ((0 : ℕ) : ℚ) + (2/5) / 2 ∧
    (4/5 : ℚ) = (((0 : ℕ) : ℚ) + 1) - (2/5) / 2 :=
  (C6_amended 2 (2/5) true [⟨1, "A", some 5⟩, ⟨2, "A", some 3⟩]).1
    ⟨"A", 0, 1, 2, 1/5, 4/5, 0, 5, 0, 3⟩ (by decide)

/-! ### Claim C8 — zero-area connector suppression -/

attribute [local semireducible] Rat.add Rat.sub Rat.mul Rat.inv in
/-- Claim C8, counterexample: `employee_hours_chart.create_ribbon_chart` has
no zero-height check: with category "A" at value 0 in both periods, both
endpoint segments have zero height (0,0)–(0,0) and a collapsed ribbon
polygon is still emitted. -/
theorem C8_counterexample :
    ribbonsHours 2 [⟨1, "A", some 0⟩, ⟨2, "A", some 0⟩] =
      [⟨"A", 0, 1, 2, 1/5, 4/5, some 0, some 0, some 0, some 0⟩] ∧
    veq0 (vsub (some 0) (some 0)) = true := by
  refine ⟨by decide, by decide⟩

/-- Claim C8 (amended): `add_ribbon_scenario` detects and drops zero-area
connectors — no emitted ribbon has zero height at both ends — and
`ribbon_engine.create_ribbon_chart` cannot emit one, because its filtered
coordinate maps contain positive-height segments only, so every engine
ribbon has strictly positive height at both ends.
`employee_hours_chart.create_ribbon_chart` performs no such check and emits
the collapsed polygon (see the counterexample). -/
theorem C8_amended (gap bw : ℚ) (asc : Bool) (rows : List Row) :
    (∀ rb ∈ ribbonsScenario gap rows,
      ¬(veq0 (vsub rb.y1t rb.y1b) = true ∧ veq0 (vsub rb.y2t rb.y2b) = true)) ∧
    (∀ rb ∈ ribbonsEngine gap bw asc rows, rb.y1b < rb.y1t ∧ rb.y2b < rb.y2t) := by
  constructor
  · intro rb hmem
    obtain ⟨i, p1, p2, cat, s1, s2, h1, h2, hcat, hf1, hf2, hz, hrb⟩ :=
      mem_ribbonsScenario.mp hmem
    subst hrb
    exact hz
  · intro rb hmem
    obtain ⟨i, p1, p2, cat, s1, s2, h1, h2, hcat, hf1, hf2, hrb⟩ :=
      mem_ribbonsEngine.mp hmem
    have h1' := stackEngine_mem (findSeg_eq_some hf1).1
    have h2' := stackEngine_mem (findSeg_eq_some hf2).1
    obtain ⟨_, _, _, v1, _, hv1, he1⟩ := h1'
    obtain ⟨_, _, _, v2, _, hv2, he2⟩ := h2'
    subst hrb
    constructor
    · show s1.yStart < s1.yEnd
      rw [he1]
      linarith
    · show s2.yStart < s2.yEnd
      rw [he2]
      linarith

attribute [local semireducible] Rat.add Rat.sub Rat.mul Rat.inv in
/-- Claim C8, witness for the amended theorem: the concrete scenario ribbon
with endpoint extents (0,5) and (0,3) is not a zero-area connector. -/
theorem C8_amended_witness :
    ¬(veq0 (vsub (some 5) (some 0)) = true ∧ veq0 (vsub (some 3) (some 0)) = true) :=
  (C8_amended 2 (2/5) true [⟨1, "A", some 5⟩, ⟨2, "A", some 3⟩]).1
    ⟨"A", 0, 1, 2, 1 + 7/40, 2 - 7/40, some 0, some 5, some 0, some 3⟩ (by decide)

end RibbonChart

namespace RibbonChart

/-! ### Claim C9 — missing required columns -/

/-- Claim C9, counterexample: the validation loop raises on the *first*
missing column only (lines 49–51), not with the list of missing fields: a
dataset with no columns at all and one missing only the period column
produce the same error naming "Week", although their missing-field lists
differ. -/
theorem C9_counterexample :
    createRibbonChartE [] "Week" "Employee" "Hours" 2 (2/5) true [] = .error ("Week") ∧
    createRibbonChartE ["Employee", "Hours"] "Week" "Employee" "Hours" 2 (2/5) true []
      = .error ("Week") ∧
    missingFields [] ["Week", "Employee", "Hours"] ≠
      missingFields ["Employee", "Hours"] ["Week", "Employee", "Hours"] := by
  refine ⟨by decide, by decide, by decide⟩

/-- Claim C9 (amended): if any required column (period, category, value) is
absent, `create_ribbon_chart` raises an error naming the *first* missing
column in that order — a genuinely missing field, but not the whole list
(see the counterexample) — and aborts before any layout work: the result is
the error alone, with no coordinate map and no ribbons.  When all required
columns are present it proceeds to layout. -/
theorem C9_amended (columns : List String) (xCol catCol valCol : String)
    (gap bw : ℚ) (asc : Bool) (rows : List Row) :
    (∀ m, requiredCheck columns xCol catCol valCol = some m →
      createRibbonChartE columns xCol catCol valCol gap bw asc rows = .error m ∧
      m ∈ missingFields columns [xCol, catCol, valCol]) ∧
    (requiredCheck columns xCol catCol valCol = none →
      createRibbonChartE columns xCol catCol valCol gap bw asc rows =
        .ok ((periodsSorted rows).map (fun p => (p, coordsEngine gap asc rows p)),
             ribbonsEngine gap bw asc rows)) := by
  constructor
  · intro m hm
    constructor
    · simp only [createRibbonChartE, hm]
    · have hmem : m ∈ [xCol, catCol, valCol] := List.mem_of_find?_eq_some hm
      have hpred := List.find?_some hm
      unfold missingFields
      rw [List.mem_filter]
      exact ⟨hmem, hpred⟩
  · intro h
    simp only [createRibbonChartE, h]

/-- Claim C9, witness for the amended theorem: with an empty column list the
engine raises naming "Week", the first required column, which is indeed a
missing field. -/
theorem C9_amended_witness :
    createRibbonChartE [] "Week" "Employee" "Hours" 2 (2/5) true [] = .error ("Week") ∧
    "Week" ∈ missingFields [] ["Week", "Employee", "Hours"] :=
  (C9_amended [] "Week" "Employee" "Hours" 2 (2/5) true []).1 "Week" (by decide)

/-! ### Claim C10 — explicit color dict used without validation -/

theorem addBars_isOk {cmap : List (String × String)} {segs : List Seg}
    (h : ∀ s ∈ segs, (colorLookup cmap s.category).isSome = true) :
    (addBars cmap segs).isOk = true := by
  induction segs with
  | nil => rfl
  | cons s rest ih =>
    have hs := h s (List.mem_cons_self _ _)
    obtain ⟨col, hcol⟩ := Option.isSome_iff_exists.mp hs
    have hrest := ih (fun t ht => h t (List.mem_cons_of_mem _ ht))
    simp only [addBars, hcol]
    cases hab : addBars cmap rest with
    | error e => rw [hab] at hrest; simp [Except.isOk, Except.toBool] at hrest
    | ok bars => rfl

attribute [local semireducible] Rat.add Rat.sub Rat.mul Rat.inv in
/-- Claim C10: when `colors` is an explicit dict it is used as the color map
without validation or fallback.  Concretely, with dict mapping only "A" and
data containing "B" with a positive value, bar generation fails with a
key-lookup error at "B"; and whenever the dict covers every category in the
data, every color lookup succeeds and bar generation cannot reach the error
branch. -/
theorem C10_colors :
    (barsEngine 2 true [("A", "red")] [⟨1, "A", some 5⟩, ⟨1, "B", some 3⟩]
      = .error ("B")) ∧
    (∀ (gap : ℚ) (asc : Bool) (cmap : List (String × String)) (rows : List Row),
      (∀ r ∈ rows, (colorLookup cmap r.category).isSome = true) →
      (barsEngine gap asc cmap rows).isOk = true) := by
  constructor
  · decide
  · intro gap asc cmap rows hcov
    apply addBars_isOk
    intro s hs
    unfold barsEngine at hs
    rw [List.mem_flatMap] at hs
    obtain ⟨p, hp, hsp⟩ := hs
    obtain ⟨r, hr, hrcat, _⟩ := stackEngine_mem hsp
    have hr' : r ∈ rows := (mem_periodRows.mp ((mem_insertionSortB _ _ _).mp hr)).1
    rw [← hrcat]
    exact hcov r hr'

attribute [local semireducible] Rat.add Rat.sub Rat.mul Rat.inv in
/-- Claim C10, witness: a covering dict makes bar generation succeed on a
concrete input. -/
theorem C10_colors_witness :
    (barsEngine 2 true [("A", "red")] [⟨1, "A", some 5⟩]).isOk = true :=
  C10_colors.2 2 true [("A", "red")] [⟨1, "A", some 5⟩] (by decide)

end RibbonChart

namespace RibbonChart

/-! ### Claims C5 and C7 — the sampled interpolation curves -/

theorem get_sigmoid_curve_head (x1 y1 x2 y2 : ℝ) (m : ℕ) :
    (get_sigmoid_curve x1 y1 x2 y2 (m + 2)).1.head? = some x1 ∧
    (get_sigmoid_curve x1 y1 x2 y2 (m + 2)).2.head? =
      some (y1 + (y2 - y1) / (1 + Real.exp 5)) := by
  have hrange : List.range (m + 2) = 0 :: (List.range (m + 1)).map Nat.succ :=
    List.range_succ_eq_map (m + 1)
  have hsig : sigmoid 0 = 1 / (1 + Real.exp 5) := by
    unfold sigmoid
    norm_num
  constructor
  · simp only [get_sigmoid_curve, linspace01, hrange, List.map_cons, List.head?_cons,
      Option.some.injEq, Nat.cast_zero]
    rw [zero_div]
    ring
  · simp only [get_sigmoid_curve, linspace01, hrange, List.map_cons, List.head?_cons,
      Option.some.injEq, Nat.cast_zero]
    rw [zero_div, hsig]
    ring

theorem get_sigmoid_curve_last (x1 y1 x2 y2 : ℝ) (m : ℕ) :
    (get_sigmoid_curve x1 y1 x2 y2 (m + 2)).1.getLast? = some x2 ∧
    (get_sigmoid_curve x1 y1 x2 y2 (m + 2)).2.getLast? =
      some (y1 + (y2 - y1) / (1 + Real.exp (-5))) := by
  have hrange : List.range (m + 2) = List.range (m + 1) ++ [m + 1] :=
    List.range_succ (m + 1)
  have hcast : ((m + 2 : ℕ) : ℝ) - 1 = ((m + 1 : ℕ) : ℝ) := by
    push_cast
    ring
  have hone : ((m + 1 : ℕ) : ℝ) / (((m + 2 : ℕ) : ℝ) - 1) = 1 := by
    rw [hcast]
    exact div_self (by exact_mod_cast Nat.succ_ne_zero m)
  have hsig : sigmoid 1 = 1 / (1 + Real.exp (-5)) := by
    unfold sigmoid
    norm_num
  constructor
  · simp only [get_sigmoid_curve, linspace01, hrange, List.map_append, List.map_cons,
      List.map_nil, List.getLast?_concat, Option.some.injEq]
    rw [hone]
    ring
  · simp only [get_sigmoid_curve, linspace01, hrange, List.map_append, List.map_cons,
      List.map_nil, List.getLast?_concat, Option.some.injEq]
    rw [hone, hsig]
    ring

/-- Claim C5, counterexample: boundary continuity fails beyond floating-point
tolerance.  For the concrete curve from y1 = 0 to y2 = 300 over the default
30 samples, the first sampled y is 300 / (1 + e⁵) ≈ 2.008 — more than 2
above the claimed value y1 = 0, which no floating-point tolerance covers. -/
theorem C5_counterexample :
    (get_sigmoid_curve 0 0 1 300 30).2.head? =
      some (0 + (300 - 0) / (1 + Real.exp 5)) ∧
    2 < 0 + (300 - 0) / (1 + Real.exp 5) := by
  constructor
  · exact (get_sigmoid_curve_head 0 0 1 300 28).2
  · have h1 : Real.exp 1 < 2.7182818286 := Real.exp_one_lt_d9
    have h5 : Real.exp 5 < 149 := by
      have h5' : Real.exp 5 = Real.exp 1 ^ 5 := by
        rw [show (5 : ℝ) = (5 : ℕ) * 1 by norm_num, Real.exp_nat_mul]
      rw [h5']
      calc Real.exp 1 ^ 5 < 2.7182818286 ^ 5 := by
            apply pow_lt_pow_left₀ h1 (le_of_lt (Real.exp_pos 1))
            norm_num
        _ < 149 := by norm_num
    have hpos : (0 : ℝ) < 1 + Real.exp 5 := by positivity
    rw [zero_add]
    norm_num
    rw [lt_div_iff₀ hpos]
    nlinarith

/-- Claim C5 (amended): for every curve with at least two sample points, the
first and last sampled x-coordinates equal `x_start` and `x_end` exactly, but
the sampled y-endpoints carry a fixed offset of the logistic shape: the first
sampled y is `y1 + (y2 - y1) / (1 + e⁵)` and the last is
`y1 + (y2 - y1) / (1 + e⁻⁵)` — each off the segment endpoint by
`(y2 - y1) / (1 + e⁵)` ≈ 0.67 % of the y-difference, a fixed relative error
rather than a floating-point tolerance (see the counterexample). -/
theorem C5_amended (x1 y1 x2 y2 : ℝ) (m : ℕ) :
    (get_sigmoid_curve x1 y1 x2 y2 (m + 2)).1.head? = some x1 ∧
    (get_sigmoid_curve x1 y1 x2 y2 (m + 2)).1.getLast? = some x2 ∧
    (get_sigmoid_curve x1 y1 x2 y2 (m + 2)).2.head? =
      some (y1 + (y2 - y1) / (1 + Real.exp 5)) ∧
    (get_sigmoid_curve x1 y1 x2 y2 (m + 2)).2.getLast? =
      some (y1 + (y2 - y1) / (1 + Real.exp (-5))) :=
  ⟨(get_sigmoid_curve_head x1 y1 x2 y2 m).1, (get_sigmoid_curve_last x1 y1 x2 y2 m).1,
   (get_sigmoid_curve_head x1 y1 x2 y2 m).2, (get_sigmoid_curve_last x1 y1 x2 y2 m).2⟩

/-- Claim C7: the ribbon polygon is exactly the spec's description — the top
boundary curve sampled left-to-right at `n` uniform parameters (x linear in
t, y logistic in t) concatenated with the bottom boundary curve reversed. -/
theorem C7_polygon (x1 y1b y1t x2 y2b y2t : ℝ) (n : ℕ) :
    ribbonPolygon x1 y1b y1t x2 y2b y2t n =
      specCurve x1 y1t x2 y2t n ++ (specCurve x1 y1b x2 y2b n).reverse := by
  unfold ribbonPolygon get_sigmoid_curve linspace01 specCurve sigmoid
  simp only [List.map_map]
  rw [List.zip_append (by simp)]
  rw [← List.map_reverse, ← List.map_reverse, List.zip_map', List.zip_map',
    List.map_reverse]
  simp [Function.comp]

end RibbonChart
